import Mathlib

/-!
Shallow embedding of the halo-model power-spectrum engine of
`ares/physics/HaloModel.py` (class `HaloModel`), together with proofs about
its behaviour.

Modelling conventions:
* Python floats are modelled as real numbers (`ℝ`).
* Python exceptions are modelled with `Except PyErr`; each `PyErr`
  constructor corresponds to a concrete Python exception type that a
  statement of the source can raise.
* Scalar Python float division raises `ZeroDivisionError` on a zero
  denominator, so scalar divisions whose denominator is a runtime value are
  modelled by `pyDiv`.  Elementwise numpy-array arithmetic does *not* raise
  on division by zero (it produces inf/nan with a warning), so elementwise
  divisions inside array expressions are modelled with total real division.
* numpy arrays are modelled as `List ℝ` (2-d tables as `List (List ℝ)`),
  `np.interp` as `interp`, `np.trapz` as `trapz`, `np.argmin (np.abs ...)`
  as `argminAbs`, boolean-mask selection `a[ok]` as `maskPos`.
* External collaborators that are not part of the sources
  (`HaloMassFunction` tables, `cosm`, `scipy.special.sici`, the
  `ares.util.Math` transform wrappers and the constants module) are carried
  as fields of the `HaloModel` structure.
* Wavenumber arguments `k` are modelled as scalars; the source additionally
  accepts a numpy array of wavenumbers, which `_get_ps_integrals`
  (HaloModel.py lines 271-285) processes by looping the scalar routine over
  the entries, so the scalar fragment is the semantic core.
-/

noncomputable section

/-- Python exception kinds raised by the modelled fragment of the source. -/
inductive PyErr where
  /-- `ValueError` (raised by `_prep_for_ps`, and by `np.argmin` on an
  empty array). -/
  | valueError : PyErr
  /-- `NameError` (evaluation of an undefined identifier, e.g. `m` in
  `_get_cmr_zehavi` or `z`/`Mmin_2`/`fcoll_2d` in `_integrate_over_prof`). -/
  | nameError : PyErr
  /-- `TypeError` (e.g. calling the non-callable `NotImplemented` constant,
  or multiplying `None` with an array). -/
  | typeError : PyErr
  /-- `IOError` (pre-existing output file with `clobber=False`). -/
  | ioError : PyErr
  /-- `ZeroDivisionError` (scalar float division by zero). -/
  | zeroDivisionError : PyErr
  /-- `AssertionError` (failed `assert` statement). -/
  | assertionError : PyErr
deriving DecidableEq, Repr

/-- Scalar Python float division: raises `ZeroDivisionError` when the
denominator is zero, otherwise returns the quotient. -/
def pyDiv (a b : ℝ) : Except PyErr ℝ :=
  if b = 0 then .error .zeroDivisionError else .ok (a / b)

/-- Helper for `interp`: linear interpolation through a sorted list of
`(x, f x)` pairs with constant extrapolation at both ends, matching
`np.interp` on a strictly increasing abscissa list. -/
def interpPairs (x : ℝ) : List (ℝ × ℝ) → ℝ
  | [] => 0
  | [(_, f1)] => f1
  | (x1, f1) :: (x2, f2) :: rest =>
    if x ≤ x1 then f1
    else if x ≤ x2 then f1 + (f2 - f1) * (x - x1) / (x2 - x1)
    else interpPairs x ((x2, f2) :: rest)

/-- `np.interp x xp fp`: piecewise-linear interpolation of the tabulated
values `fp` over the increasing abscissae `xp`, clamped at the ends. -/
def interp (x : ℝ) (xp fp : List ℝ) : ℝ :=
  interpPairs x (xp.zip fp)

/-- `np.trapz y x`: composite trapezoidal rule with sample points `x` and
values `y`. -/
def trapz : List ℝ → List ℝ → ℝ
  | y1 :: y2 :: ys, x1 :: x2 :: xs =>
    (x2 - x1) * (y1 + y2) / 2 + trapz (y2 :: ys) (x2 :: xs)
  | _, _ => 0

/-- `np.argmin (np.abs (xs - z))`: index of the first entry of `xs`
minimising the distance to `z` (`0` on the empty list, where numpy would
instead raise; callers guard that case). -/
def argminAbs (z : ℝ) : List ℝ → ℕ
  | [] => 0
  | [_] => 0
  | x :: y :: rest =>
    let j := argminAbs z (y :: rest)
    if |((y :: rest).getD j 0) - z| < |x - z| then j + 1 else 0

/-- Elementwise product of two numpy arrays of equal length. -/
def listMul (a b : List ℝ) : List ℝ :=
  List.zipWith (· * ·) a b

/-- Boolean-mask selection `ys[fc > 0]`: keep the entries of `ys` whose
corresponding entry of `fc` is positive (the source's
`ok = tab_fcoll[iz] > 0` mask). -/
def maskPos (fc ys : List ℝ) : List ℝ :=
  (fc.zip ys).filterMap (fun p => if 0 < p.1 then some p.2 else none)

/-- `np.allclose a b` on arrays of equal length, with numpy's default
tolerances `rtol = 1e-5`, `atol = 1e-8`. -/
def allclose (a b : List ℝ) : Bool :=
  (a.zip b).all (fun p => decide (|p.1 - p.2| ≤ 1e-8 + 1e-5 * |p.2|))

/-- Left-to-right monadic map over a list, stopping at the first raised
exception — the effect of a Python list comprehension or loop whose body
may raise. -/
def mapExcept {α : Type} (f : α → Except PyErr ℝ) :
    List α → Except PyErr (List ℝ)
  | [] => .ok []
  | x :: xs => do
    let y ← f x
    let ys ← mapExcept f xs
    return y :: ys

/-- Configuration surface (`self.pf`) consumed by the modelled fragment. -/
structure PFConfig where
  /-- `pf['halo_cmr']`: name of the concentration-mass relation. -/
  halo_cmr : String
  /-- `pf['halo_ps_linear']`: linear-only mode toggle. -/
  halo_ps_linear : Bool
  /-- `pf['halo_ps_load']`: load the correlation-function table. -/
  halo_ps_load : Bool
  /-- `pf['use_mcfit']`: use the tabulated (mcfit) transform. -/
  use_mcfit : Bool
  /-- `pf['halo_delta']`: overdensity threshold for the virial radius. -/
  halo_delta : ℝ

/-- A halo profile: either a Python function of `(z, M, k)` (which may
raise), or a pre-tabulated array over `(z, M, k)` interpolated in `k`
(the two branches of the `type(prof) in [FunctionType, MethodType]` test
in `_integrate_over_prof`). -/
inductive Prof where
  | fn : (ℝ → ℝ → ℝ → Except PyErr ℝ) → Prof
  | tab : List (List (List ℝ)) → Prof

/-- State of a `HaloModel` instance: its configuration together with the
tables and helpers supplied by external collaborators (the
`HaloMassFunction` base class, the cosmology object `cosm`,
`scipy.special.sici`, the `ares.util.Math` transforms and the constants
module), which are out of scope per the spec and are carried as opaque
data. -/
structure HaloModel where
  pf : PFConfig
  /-- `self.tab_z`: tabulated redshift grid. -/
  tab_z : List ℝ
  /-- `self.tab_M`: tabulated halo-mass grid. -/
  tab_M : List ℝ
  /-- `self.tab_dndlnm[iz]`: differential mass function per redshift. -/
  tab_dndlnm : List (List ℝ)
  /-- `self.tab_bias[iz]`: linear bias per redshift. -/
  tab_bias : List (List ℝ)
  /-- `self.tab_fcoll[iz]`: collapsed fraction per redshift. -/
  tab_fcoll : List (List ℝ)
  /-- `self.tab_k_lin`: wavenumbers of the linear power spectrum table. -/
  tab_k_lin : List ℝ
  /-- `self.tab_ps_lin[iz]`: tabulated linear matter power spectrum. -/
  tab_ps_lin : List (List ℝ)
  /-- `self.tab_k`: halo-model wavenumber grid. -/
  tab_k : List ℝ
  /-- `self.tab_R`: real-space scale grid. -/
  tab_R : List ℝ
  /-- `self.tab_cf_mm[iz]`: tabulated matter correlation function. -/
  tab_cf_mm : List (List ℝ)
  /-- `self.tab_ps_mm[iz]`: tabulated matter power spectrum. -/
  tab_ps_mm : List (List ℝ)
  /-- `self.cosm.rho_m_z0` (external cosmology object). -/
  cosm_rho_m_z0 : ℝ
  /-- `self.cosm.mean_density0` (external cosmology object). -/
  cosm_mean_density0 : ℝ
  /-- `rho_cgs`, imported from `ares.physics.Constants` (not in sources). -/
  rho_cgs : ℝ
  /-- `c` (speed of light), imported from `ares.physics.Constants`; the
  scalar branch of `get_rho_nfw` reads this module-level `c`, not the local
  concentration `con`. -/
  c_const : ℝ
  /-- Sine integral `Si`, first component of `scipy.special.sici`. -/
  si : ℝ → ℝ
  /-- Cosine integral `Ci`, second component of `scipy.special.sici`. -/
  ci : ℝ → ℝ
  /-- Modelled from the spec: `get_cf_from_ps_tab` of `ares.util.Math`
  (file not in the sources) — the TransformLayer's fast tabulated
  Hankel-type transform taking `(k, P(k))` to `(R, ξ(R))`. -/
  cfFromPsTab : List ℝ → List ℝ → List ℝ × List ℝ
  /-- Modelled from the spec: `get_cf_from_ps_func` of `ares.util.Math`
  (file not in the sources) — the TransformLayer's direct quadrature
  transform, evaluating the supplied `P(k)` callable at integrator-chosen
  wavenumbers (so a raise inside the callable propagates). -/
  cfFromPsFunc : List ℝ → (ℝ → Except PyErr ℝ) → Except PyErr (List ℝ)

namespace HaloModel

/-- `_get_cmr_duffy` (HaloModel.py lines 58-65): Duffy et al. (2008)
concentration-mass relation. -/
def get_cmr_duffy (_hm : HaloModel) (z Mh : ℝ) : ℝ :=
  6.71 * (Mh / 2e12) ^ (-0.091 : ℝ) * (1 + z) ^ (-0.44 : ℝ)

/-- `_get_cmr_zehavi` (HaloModel.py lines 67-69): its body reads the
undefined identifier `m`, so any call raises `NameError`. -/
def get_cmr_zehavi (_hm : HaloModel) (_z _Mh : ℝ) : Except PyErr ℝ :=
  .error .nameError

/-- `get_concentration` (HaloModel.py lines 36-56): dispatch on
`pf['halo_cmr']`; the fallthrough branch executes
`raise NotImplemented('help!')`, and calling the non-callable
`NotImplemented` constant raises `TypeError`. -/
def get_concentration (hm : HaloModel) (z Mh : ℝ) : Except PyErr ℝ :=
  if hm.pf.halo_cmr = "duffy" then .ok (hm.get_cmr_duffy z Mh)
  else if hm.pf.halo_cmr = "zehavi" then hm.get_cmr_zehavi z Mh
  else .error .typeError

/-- `get_Rvir_from_Mh` (HaloModel.py lines 71-73). -/
def get_Rvir_from_Mh (hm : HaloModel) (Mh : ℝ) : Except PyErr ℝ := do
  let q ← pyDiv (3 * Mh) (4 * Real.pi * hm.pf.halo_delta * hm.cosm_mean_density0)
  return q ^ ((1 : ℝ) / 3)

/-- `_dc_nfw` (HaloModel.py lines 75-76). -/
def dc_nfw (_hm : HaloModel) (c : ℝ) : Except PyErr ℝ := do
  let a ← pyDiv (c ^ (3 : ℕ)) (4 * Real.pi)
  let b ← pyDiv c (1 + c)
  pyDiv a (Real.log (1 + c) - b)

/-- `get_rho_nfw` (HaloModel.py lines 78-99), scalar-radius branch
(`np.iterable(x)` false).  Note the scalar branch normalises with
`self._dc_nfw(c)` where `c` is the module-level speed of light imported
from `Constants`, not the local concentration `con`. -/
def get_rho_nfw (hm : HaloModel) (z Mh r : ℝ) (truncate : Bool) :
    Except PyErr ℝ := do
  let con ← hm.get_concentration z Mh
  let rvir ← hm.get_Rvir_from_Mh Mh
  let r_s ← pyDiv rvir con
  let x ← pyDiv r r_s
  let rn ← pyDiv x con
  let small_sc := if truncate then decide (rn ≤ 1) else true
  if small_sc then do
    let dc ← hm.dc_nfw hm.c_const
    let a ← pyDiv dc ((con * r_s) ^ (3 : ℕ))
    pyDiv a (x * (1 + x) ^ (2 : ℕ))
  else
    return 0

/-- `get_u_nfw` (HaloModel.py lines 101-132): normalized Fourier transform
of an NFW profile (Cooray & Sheth Eq. 81), with `sici` supplied by the
external `scipy.special`. -/
def get_u_nfw (hm : HaloModel) (z Mh k : ℝ) : Except PyErr ℝ := do
  let con ← hm.get_concentration z Mh
  let rvir ← hm.get_Rvir_from_Mh Mh
  let r_s ← pyDiv rvir con
  let K := k * r_s
  let asi := hm.si ((1 + con) * K)
  let ac := hm.ci ((1 + con) * K)
  let bs := hm.si K
  let bc := hm.ci K
  let b ← pyDiv con (1 + con)
  let norm ← pyDiv 1 (Real.log (1 + con) - b)
  let t ← pyDiv (Real.sin (con * K)) ((1 + con) * K)
  return norm * (Real.sin K * (asi - bs) - t + Real.cos K * (ac - bc))

/-- Evaluation of a profile argument at every tabulated halo mass for fixed
`(z_iz, k)`: the two `p1 = np.abs([...])` comprehensions of
`_integrate_over_prof` (HaloModel.py lines 294-304). -/
def evalProf (hm : HaloModel) (prof : Prof) (iz : ℕ) (k : ℝ) :
    Except PyErr (List ℝ) :=
  match prof with
  | .fn f => do
    let vs ← mapExcept (fun M => f (hm.tab_z.getD iz 0) M k) hm.tab_M
    return vs.map (fun v => |v|)
  | .tab T =>
    .ok ((List.range hm.tab_M.length).map
      (fun iM => |interp k hm.tab_k ((T.getD iz []).getD iM [])|))

/-- Side-1 normalisation of `_integrate_over_prof`
(HaloModel.py lines 310-321): returns `(fcoll1, corr1)`. -/
def sideOne (hm : HaloModel) (iz : ℕ) (lum1 : Option (List ℝ))
    (mmin1 : Option ℝ) : ℝ × ℝ :=
  let rho_bar := hm.cosm_rho_m_z0 * hm.rho_cgs
  let dndlnm := hm.tab_dndlnm.getD iz []
  let bias := hm.tab_bias.getD iz []
  match mmin1, lum1 with
  | none, none =>
    -- Small halo correction, Cooray & Sheth Eq. 71.
    let integrand := listMul (listMul dndlnm (hm.tab_M.map (· / rho_bar))) bias
    (1, 1 - trapz integrand (hm.tab_M.map Real.log))
  | _, some _ => (1, 0)
  | some m, none => ((hm.tab_fcoll.getD iz []).getD (argminAbs m hm.tab_M) 0, 0)

/-- Side-2 normalisation of `_integrate_over_prof`
(HaloModel.py lines 323-332): the branch taken when a mass floor is given
on side 2 without a luminosity evaluates
`self.fcoll_2d(z, np.log10(Mmin_2))`, and `fcoll_2d`, `z` and `Mmin_2` are
all undefined there, so it raises `NameError`. -/
def sideTwo (hm : HaloModel) (iz : ℕ) (lum2 : Option (List ℝ))
    (mmin2 : Option ℝ) : Except PyErr (ℝ × ℝ) :=
  let rho_bar := hm.cosm_rho_m_z0 * hm.rho_cgs
  let dndlnm := hm.tab_dndlnm.getD iz []
  let bias := hm.tab_bias.getD iz []
  match mmin2, lum2 with
  | none, none =>
    let integrand := listMul (listMul dndlnm (hm.tab_M.map (· / rho_bar))) bias
    .ok (1, 1 - trapz integrand (hm.tab_M.map Real.log))
  | _, some _ => .ok (1, 0)
  | some _, none => .error .nameError

/-- `_integrate_over_prof` (HaloModel.py lines 287-374): the halo-model
integrals over the mass grid for one scalar wavenumber.  For `term = 1`
returns `(result, none)`; for `term = 2` returns
`(integral1 + corr1, some (integral2 + corr2))`; any other `term` executes
`raise NotImplemented('dunno man')`, which raises `TypeError`. -/
def integrate_over_prof (hm : HaloModel) (k : ℝ) (iz : ℕ)
    (prof1 prof2 : Prof) (lum1 lum2 : Option (List ℝ))
    (mmin1 mmin2 : Option ℝ) (focc1 focc2 : ℝ) (term : ℕ) :
    Except PyErr (ℝ × Option ℝ) := do
  let p1 ← hm.evalProf prof1 iz k
  let p2 ← hm.evalProf prof2 iz k
  let bias := hm.tab_bias.getD iz []
  let rho_bar := hm.cosm_rho_m_z0 * hm.rho_cgs
  let dndlnm := hm.tab_dndlnm.getD iz []
  let (fcoll1, corr1) := hm.sideOne iz lum1 mmin1
  let (fcoll2, corr2) ← hm.sideTwo iz lum2 mmin2
  let fcRow := hm.tab_fcoll.getD iz []
  let (weight1, norm1) :=
    match lum1 with
    | none => (hm.tab_M, rho_bar * fcoll1)
    | some l => (l, 1)
  let (weight2, norm2) :=
    match lum2 with
    | none => (hm.tab_M, rho_bar * fcoll2)
    | some l => (l, 1)
  let logM := hm.tab_M.map Real.log
  if term = 1 then
    let integrand :=
      (listMul (listMul (listMul (listMul dndlnm weight1) weight2) p1) p2).map
        (fun t => t * focc1 / norm1 / norm2)
    return (trapz (maskPos fcRow integrand) (maskPos fcRow logM), none)
  else if term = 2 then
    let integrand1 :=
      (listMul (listMul (listMul dndlnm weight1) p1) bias).map
        (fun t => t * focc1 / norm1)
    let integrand2 :=
      (listMul (listMul (listMul dndlnm weight2) p2) bias).map
        (fun t => t * focc2 / norm2)
    let integral1 := trapz (maskPos fcRow integrand1) (maskPos fcRow logM)
    let integral2 := trapz (maskPos fcRow integrand2) (maskPos fcRow logM)
    return (integral1 + corr1, some (integral2 + corr2))
  else
    .error .typeError

/-- `_prep_for_ps` (HaloModel.py lines 376-396) for a scalar wavenumber:
nearest-grid-point redshift lookup with tolerance check (`np.argmin` on an
empty grid also raises `ValueError`), and substitution of the default NFW
profile for missing profile arguments. -/
def prep_for_ps (hm : HaloModel) (z k : ℝ) (prof1 prof2 : Option Prof)
    (ztol : ℝ) : Except PyErr (ℕ × ℝ × Prof × Prof) := do
  if hm.tab_z = [] then .error .valueError
  else
    let iz := argminAbs z hm.tab_z
    if |hm.tab_z.getD iz 0 - z| > ztol then .error .valueError
    else
      let p1 := prof1.getD (.fn (fun zz M kk => hm.get_u_nfw zz M kk))
      let p2 := prof2.getD p1
      return (iz, k, p1, p2)

/-- `_get_ps_lin` (HaloModel.py lines 398-413) for a supplied scalar `k`:
log-log interpolation of the tabulated linear power spectrum. -/
def get_ps_lin (hm : HaloModel) (k : ℝ) (iz : ℕ) : ℝ :=
  Real.exp (interp (Real.log k) (hm.tab_k_lin.map Real.log)
    ((hm.tab_ps_lin.getD iz []).map Real.log))

/-- `get_ps_1h` (HaloModel.py lines 415-426): 1-halo term. -/
def get_ps_1h (hm : HaloModel) (z k : ℝ) (prof1 prof2 : Option Prof)
    (lum1 lum2 : Option (List ℝ)) (mmin1 mmin2 : Option ℝ)
    (focc1 focc2 : ℝ) (ztol : ℝ) : Except PyErr ℝ := do
  let (iz, k, p1, p2) ← hm.prep_for_ps z k prof1 prof2 ztol
  let (integ1, _) ← hm.integrate_over_prof k iz p1 p2 lum1 lum2 mmin1 mmin2
    focc1 focc2 1
  return integ1

/-- `get_ps_2h` (HaloModel.py lines 428-448): 2-halo term, with the
linear-only shortcut that returns the interpolated linear power spectrum
when no luminosity or mass floor is supplied. -/
def get_ps_2h (hm : HaloModel) (z k : ℝ) (prof1 prof2 : Option Prof)
    (lum1 lum2 : Option (List ℝ)) (mmin1 mmin2 : Option ℝ)
    (focc1 focc2 : ℝ) (ztol : ℝ) : Except PyErr ℝ := do
  let (iz, k, p1, p2) ← hm.prep_for_ps z k prof1 prof2 ztol
  let ps_lin := hm.get_ps_lin k iz
  if hm.pf.halo_ps_linear ∧ lum1 = none ∧ lum2 = none ∧ mmin1 = none ∧
      mmin2 = none then
    return ps_lin
  else
    let (integ1, integ2opt) ← hm.integrate_over_prof k iz p1 p2 lum1 lum2
      mmin1 mmin2 focc1 focc2 2
    match integ2opt with
    | some integ2 => return integ1 * integ2 * ps_lin
    | none => .error .typeError

/-- `get_ps_shot` (HaloModel.py lines 450-462): shot-noise term.  If a
luminosity argument is left at its default `None`, the numpy product
`dndlnm * focc1 * lum1 * lum2` raises `TypeError`. -/
def get_ps_shot (hm : HaloModel) (z k : ℝ) (lum1 lum2 : Option (List ℝ))
    (_mmin1 _mmin2 : Option ℝ) (focc1 _focc2 : ℝ) (ztol : ℝ) :
    Except PyErr ℝ := do
  let (iz, _, _, _) ← hm.prep_for_ps z k none none ztol
  match lum1, lum2 with
  | some l1, some l2 =>
    let dndlnm := hm.tab_dndlnm.getD iz []
    let integrand := (listMul (listMul dndlnm l1) l2).map (· * focc1)
    return trapz integrand (hm.tab_M.map Real.log)
  | _, _ => .error .typeError

/-- `get_ps_mm` (HaloModel.py lines 464-477): total power spectrum.  The
source forwards nine positional arguments to `get_ps_1h`/`get_ps_2h`, whose
ninth parameter is `focc1`, so the caller's `ztol` lands in the `focc1`
slot of both calls while their own `ztol` stays at its default `1e-3`. -/
def get_ps_mm (hm : HaloModel) (z k : ℝ) (prof1 prof2 : Option Prof)
    (lum1 lum2 : Option (List ℝ)) (mmin1 mmin2 : Option ℝ) (ztol : ℝ) :
    Except PyErr ℝ := do
  let ps_1h ←
    if hm.pf.halo_ps_linear then pure 0
    else hm.get_ps_1h z k prof1 prof2 lum1 lum2 mmin1 mmin2 ztol 1 1e-3
  let ps_2h ← hm.get_ps_2h z k prof1 prof2 lum1 lum2 mmin1 mmin2 ztol 1 1e-3
  return ps_1h + ps_2h

/-- Result of `get_cf_mm`: either a bare correlation-function array or a
`(R, cf)` pair, reflecting the two return shapes of the source. -/
inductive CFRes where
  | arr : List ℝ → CFRes
  | pair : List ℝ → List ℝ → CFRes

/-- Compute branch of `get_cf_mm` (HaloModel.py lines 513-533): power
spectrum via `get_ps_mm` (elementwise over the wavenumber grid), then
inverse transform through the external `get_cf_from_ps_tab` /
`get_cf_from_ps_func` wrappers. -/
def get_cf_mm_compute (hm : HaloModel) (z : ℝ) (R : Option (List ℝ)) :
    Except PyErr CFRes :=
  if hm.pf.use_mcfit then do
    let k := if hm.pf.halo_ps_linear then hm.tab_k_lin else hm.tab_k
    let Pofk ← mapExcept
      (fun kk => hm.get_ps_mm z kk none none none none none none 1e-3) k
    let Rcf := hm.cfFromPsTab k Pofk
    match R with
    | some Rl => return .pair Rl (Rl.map (fun r => interp r Rcf.1 Rcf.2))
    | none => return .pair Rcf.1 Rcf.2
  else do
    let Rl := R.getD hm.tab_R
    let cf ← hm.cfFromPsFunc Rl
      (fun kk => hm.get_ps_mm z kk none none none none none none 1e-3)
    return .pair Rl cf

/-- `get_cf_mm` (HaloModel.py lines 479-533).  On the table-load path
(`halo_ps_load` and `load` set, linear-only off) it asserts the redshift is
in the table, and when a supplied `R` has the tabulated length it returns a
bare array (the tabulated row if `np.allclose(R, tab_R)`, else its
interpolation onto `R`); every other path falls through to the compute
branch, which returns a `(R, cf)` pair. -/
def get_cf_mm (hm : HaloModel) (z : ℝ) (R : Option (List ℝ)) (load : Bool)
    (ztol : ℝ) : Except PyErr CFRes :=
  if hm.pf.halo_ps_load ∧ load ∧ ¬hm.pf.halo_ps_linear then
    let iz := argminAbs z hm.tab_z
    if ¬(|z - hm.tab_z.getD iz 0| < ztol) then .error .assertionError
    else
      match R with
      | some Rl =>
        if Rl.length = hm.tab_R.length then
          if allclose Rl hm.tab_R then .ok (.arr (hm.tab_cf_mm.getD iz []))
          else
            .ok (.arr (Rl.map
              (fun r => interp r hm.tab_R (hm.tab_cf_mm.getD iz []))))
        else hm.get_cf_mm_compute z R
      | none => hm.get_cf_mm_compute z R
  else hm.get_cf_mm_compute z R

/-- Content of the persisted power-spectrum table: the five datasets
written by `_write_ps` (`tab_z_ps`, `tab_R`, `tab_k`, `tab_ps_mm`,
`tab_cf_mm`), or some unrelated pre-existing file. -/
inductive PSFile where
  | psTable : List ℝ → List ℝ → List ℝ → List (List ℝ) → List (List ℝ) →
      PSFile
  | other : ℕ → PSFile

/-- A filesystem: a map from paths to file contents. -/
def FsMap := String → Option PSFile

/-- `rm -f fn`. -/
def fsRemove (fs : FsMap) (fn : String) : FsMap :=
  fun q => if q = fn then none else fs q

/-- Write (create or replace) the file at `fn`. -/
def fsWrite (fs : FsMap) (fn : String) (f : PSFile) : FsMap :=
  fun q => if q = fn then some f else fs q

/-- The table `_write_ps` persists for a model whose `TabulatePS` pass has
filled `tab_ps_mm` / `tab_cf_mm` (the in-memory computation itself touches
no files in the modelled checkpoint-off fragment). -/
def psFile (hm : HaloModel) : PSFile :=
  .psTable hm.tab_z hm.tab_R hm.tab_k hm.tab_ps_mm hm.tab_cf_mm

/-- `_write_ps` (HaloModel.py lines 984-1019): guard against a
pre-existing output path (delete it when `clobber`, raise `IOError`
otherwise), then write the five datasets. -/
def write_ps (hm : HaloModel) (fs : FsMap) (fn : String) (clobber : Bool) :
    Except PyErr Unit × FsMap :=
  if (fs fn).isSome then
    if clobber then (.ok (), fsWrite (fsRemove fs fn) fn (psFile hm))
    else (.error .ioError, fs)
  else (.ok (), fsWrite fs fn (psFile hm))

/-- `generate_ps` (HaloModel.py lines 940-982) for an explicitly supplied
output path, single worker (`rank = 0`), checkpointing off: the
pre-existing-path guard runs before `TabulatePS` does any computation
(`rm -f` when `clobber`, raise `IOError` otherwise), after which the table
is computed and `_write_ps` persists it. -/
def generate_ps (hm : HaloModel) (fs : FsMap) (fn : String)
    (clobber : Bool) : Except PyErr Unit × FsMap :=
  if (fs fn).isSome then
    if clobber then hm.write_ps (fsRemove fs fn) fn clobber
    else (.error .ioError, fs)
  else hm.write_ps fs fn clobber

end HaloModel

open HaloModel

/-- A profile argument that is the constant function `1` (a valid
`(z, M, k) -> value` profile per the ProfileEvaluator contract), used to
evaluate the integrators on concrete inputs. -/
def profOne : Prof := .fn (fun _ _ _ => .ok 1)

/-- A concrete `HaloModel` state: one tabulated redshift `z = 5`, two halo
masses `e` and `e^2` (so the log-mass grid is `[1, 2]`), all mass-function
tables equal to one, and a one-point linear power spectrum table
`P(k=1) = 1`. -/
def hmA : HaloModel where
  pf := { halo_cmr := "duffy", halo_ps_linear := false, halo_ps_load := true,
          use_mcfit := true, halo_delta := 1 }
  tab_z := [5]
  tab_M := [Real.exp 1, Real.exp 2]
  tab_dndlnm := [[1, 1]]
  tab_bias := [[1, 1]]
  tab_fcoll := [[1, 1]]
  tab_k_lin := [1]
  tab_ps_lin := [[1]]
  tab_k := [1]
  tab_R := [1]
  tab_cf_mm := [[1]]
  tab_ps_mm := [[1]]
  cosm_rho_m_z0 := 1
  cosm_mean_density0 := 1
  rho_cgs := 1
  c_const := 1
  si := fun _ => 0
  ci := fun _ => 0
  cfFromPsTab := fun _ _ => ([1], [1])
  cfFromPsFunc := fun _ _ => .ok [1]

/-- `hmA` with the linear-only mode switched on. -/
def hmB : HaloModel :=
  { hmA with pf := { hmA.pf with halo_ps_linear := true } }

/-- `hmA` with a non-constant collapsed-fraction row, to observe the
mass-floor normalisation. -/
def hmC4 : HaloModel :=
  { hmA with tab_fcoll := [[1 / 2, 1]] }

/-- `hmA` with an unrecognized concentration-mass-relation name. -/
def hm7 : HaloModel :=
  { hmA with pf := { hmA.pf with halo_cmr := "nfw" } }

/-- A filesystem holding exactly one file, named `halo_ps.hdf5`. -/
def fs0 : FsMap :=
  fun q => if q = "halo_ps.hdf5" then some (.other 0) else none

/-- Reduction of an `Except` bind on a success value. -/
theorem bindOk {α β : Type} (a : α) (f : α → Except PyErr β) :
    (Except.ok a >>= f) = f a := rfl

/-- Reduction of an `Except` bind on an exception. -/
theorem bindErr {α β : Type} (e : PyErr) (f : α → Except PyErr β) :
    ((Except.error e : Except PyErr α) >>= f) = .error e := rfl

/-- `pure` on `Except` is `Except.ok`. -/
theorem pureOk {α : Type} (a : α) : (pure a : Except PyErr α) = .ok a := rfl

/-- Any scalar evaluation of the NFW density at radius `r = 0` under the
Duffy relation ends in a `ZeroDivisionError`: every division in the chain
either succeeds (leaving `x = 0 / r_s = 0`, so the final denominator
`x * (1 + x) ^ 2` is zero) or itself raises `ZeroDivisionError`. -/
theorem rho_nfw_r0_aux (hm : HaloModel) (z Mh : ℝ) (t : Bool)
    (h : hm.pf.halo_cmr = "duffy") :
    hm.get_rho_nfw z Mh 0 t = .error .zeroDivisionError := by
  have hc : hm.get_concentration z Mh = .ok (hm.get_cmr_duffy z Mh) := by
    simp [HaloModel.get_concentration, h]
  have hpi : ¬(4 * Real.pi = 0) := by
    simp [Real.pi_ne_zero]
  have hsc : (if t = true then decide ((0 : ℝ) ≤ 1) else true) = true := by
    cases t <;> simp
  unfold HaloModel.get_rho_nfw
  rw [hc, bindOk]
  by_cases hD : 4 * Real.pi * hm.pf.halo_delta * hm.cosm_mean_density0 = 0
  · rw [show hm.get_Rvir_from_Mh Mh = .error .zeroDivisionError by
      simp [HaloModel.get_Rvir_from_Mh, pyDiv, hD, bindErr], bindErr]
  · rw [show hm.get_Rvir_from_Mh Mh = .ok ((3 * Mh /
        (4 * Real.pi * hm.pf.halo_delta * hm.cosm_mean_density0)) ^
        ((1 : ℝ) / 3)) by
      simp [HaloModel.get_Rvir_from_Mh, pyDiv, hD, bindOk], bindOk]
    set rv : ℝ := (3 * Mh /
      (4 * Real.pi * hm.pf.halo_delta * hm.cosm_mean_density0)) ^
      ((1 : ℝ) / 3) with hrvdef
    set C : ℝ := hm.get_cmr_duffy z Mh with hCdef
    by_cases hcon : C = 0
    · rw [show pyDiv rv C = .error .zeroDivisionError by
        simp [pyDiv, hcon], bindErr]
    · rw [show pyDiv rv C = .ok (rv / C) by simp [pyDiv, hcon], bindOk]
      by_cases hrs : rv / C = 0
      · rw [show pyDiv 0 (rv / C) = .error .zeroDivisionError by
          simp [pyDiv, hrs], bindErr]
      · rw [show pyDiv 0 (rv / C) = .ok 0 by
          simp [pyDiv, hrs, zero_div], bindOk]
        rw [show pyDiv 0 C = .ok 0 by simp [pyDiv, hcon, zero_div], bindOk]
        by_cases h1c : 1 + hm.c_const = 0
        · simp [HaloModel.dc_nfw, pyDiv, hpi, h1c, hsc, bindOk, bindErr]
        · by_cases hden : Real.log (1 + hm.c_const) -
              hm.c_const / (1 + hm.c_const) = 0
          · simp [HaloModel.dc_nfw, pyDiv, hpi, h1c, hden, hsc, bindOk,
              bindErr]
          · have hp3 : ¬((C * (rv / C)) ^ (3 : ℕ) = 0) :=
              pow_ne_zero _ (mul_ne_zero hcon hrs)
            simp [HaloModel.dc_nfw, pyDiv, hpi, h1c, hden, hsc, hp3, bindOk,
              bindErr]

/-- Mask selection keeps both entries of a two-entry array when both mask
values are positive. -/
theorem maskPos_pair (fc1 fc2 a b : ℝ) (h1 : 0 < fc1) (h2 : 0 < fc2) :
    maskPos [fc1, fc2] [a, b] = [a, b] := by
  simp [maskPos, h1, h2]

/-- Trapezoid rule on a two-point grid. -/
theorem trapz_pair (a b x1 x2 : ℝ) :
    trapz [a, b] [x1, x2] = (x2 - x1) * (a + b) / 2 := by
  simp [trapz]

/-- Evaluation of the constant profile on the `hmA` mass grid. -/
theorem evalProf_profOne_hmA :
    hmA.evalProf profOne 0 1 = .ok [1, 1] := by
  simp [HaloModel.evalProf, profOne, mapExcept, hmA, bindOk, pureOk,
    abs_one]

/-- Redshift lookup on `hmA` at the tabulated `z = 5` succeeds. -/
theorem prep_hmA :
    hmA.prep_for_ps 5 1 (some profOne) (some profOne) 1e-3 =
      .ok (0, 1, profOne, profOne) := by
  norm_num [HaloModel.prep_for_ps, hmA, argminAbs, pureOk]

/-- The `term = 1` integral on `hmA` with unit luminosities evaluates to
the occupation `f1`. -/
theorem integ1_hmA (f1 f2 : ℝ) :
    hmA.integrate_over_prof 1 0 profOne profOne (some [1, 1]) (some [1, 1])
      none none f1 f2 1 = .ok (f1, none) := by
  simp only [HaloModel.integrate_over_prof, evalProf_profOne_hmA, bindOk]
  norm_num [HaloModel.sideOne, HaloModel.sideTwo, hmA, listMul,
    maskPos_pair, trapz_pair, bindOk, pureOk, Real.log_exp]

/-- The `term = 2` integrals on `hmA` with unit luminosities evaluate to
the two occupations. -/
theorem integ2_hmA (f1 f2 : ℝ) :
    hmA.integrate_over_prof 1 0 profOne profOne (some [1, 1]) (some [1, 1])
      none none f1 f2 2 = .ok (f1, some f2) := by
  simp only [HaloModel.integrate_over_prof, evalProf_profOne_hmA, bindOk]
  norm_num [HaloModel.sideOne, HaloModel.sideTwo, hmA, listMul,
    maskPos_pair, trapz_pair, bindOk, pureOk, Real.log_exp]

/-- The interpolated linear power spectrum of `hmA` at `k = 1`. -/
theorem get_ps_lin_hmA : hmA.get_ps_lin 1 0 = 1 := by
  norm_num [HaloModel.get_ps_lin, hmA, interp, interpPairs, Real.log_one,
    Real.exp_zero]

/-- `get_ps_1h` on `hmA` returns the occupation `f1`. -/
theorem get_ps_1h_hmA (f1 f2 : ℝ) :
    hmA.get_ps_1h 5 1 (some profOne) (some profOne) (some [1, 1])
      (some [1, 1]) none none f1 f2 1e-3 = .ok f1 := by
  simp [HaloModel.get_ps_1h, prep_hmA, integ1_hmA, bindOk, pureOk]

/-- `get_ps_2h` on `hmA` returns the product of the two occupations. -/
theorem get_ps_2h_hmA (f1 f2 : ℝ) :
    hmA.get_ps_2h 5 1 (some profOne) (some profOne) (some [1, 1])
      (some [1, 1]) none none f1 f2 1e-3 = .ok (f1 * f2) := by
  simp [HaloModel.get_ps_2h, prep_hmA, integ2_hmA, get_ps_lin_hmA, bindOk,
    pureOk]

/-- C1: at the concrete state `hmA` (`z = 5` on the grid, `k = 1`,
constant profiles, unit luminosities, all arguments at their Python
defaults) `get_ps_mm` returns `0.002`, while `get_ps_1h + get_ps_2h` with
the same profile, luminosity, mass-floor and (default) occupation
arguments is `1 + 1 = 2`: the source forwards its `ztol` positionally into
the `focc1` slot of both internal calls, so the total is not the sum of
the two terms as directly computed. -/
theorem claimC1_get_ps_mm_not_sum :
    hmA.get_ps_mm 5 1 (some profOne) (some profOne) (some [1, 1])
      (some [1, 1]) none none 1e-3 = .ok 0.002 ∧
    hmA.get_ps_1h 5 1 (some profOne) (some profOne) (some [1, 1])
      (some [1, 1]) none none 1 1 1e-3 = .ok 1 ∧
    hmA.get_ps_2h 5 1 (some profOne) (some profOne) (some [1, 1])
      (some [1, 1]) none none 1 1 1e-3 = .ok 1 ∧
    (0.002 : ℝ) ≠ 1 + 1 := by
  have hlin : hmA.pf.halo_ps_linear = false := rfl
  refine ⟨?_, ?_, ?_, by norm_num⟩
  · simp [HaloModel.get_ps_mm, hlin, get_ps_1h_hmA, get_ps_2h_hmA, bindOk,
      pureOk]
    norm_num
  · simpa using get_ps_1h_hmA 1 1
  · simpa using get_ps_2h_hmA 1 1

/-- Redshift lookup on `hmA` at `z = 5.0005` with tolerance `1e-5` fails:
the gap to the nearest grid point is `5e-4`. -/
theorem prep_hmA_far (p1 p2 : Option Prof) :
    hmA.prep_for_ps 5.0005 1 p1 p2 1e-5 = .error .valueError := by
  have habs : |(1 : ℝ) / 2000| ≤ 1 / 100000 ↔ False := by
    rw [abs_of_pos] <;> norm_num
  norm_num [HaloModel.prep_for_ps, hmA, argminAbs, habs, pureOk]

/-- Redshift lookup on `hmA` at `z = 5.0005` with the default tolerance
`1e-3` succeeds (`5e-4 ≤ 1e-3`). -/
theorem prep_hmA_near :
    hmA.prep_for_ps 5.0005 1 (some profOne) (some profOne) 1e-3 =
      .ok (0, 1, profOne, profOne) := by
  have habs : (1 : ℝ) / 1000 < |1 / 2000| ↔ False := by
    rw [abs_of_pos] <;> norm_num
  norm_num [HaloModel.prep_for_ps, hmA, argminAbs, habs, pureOk]

/-- `get_ps_1h` on `hmA` at `z = 5.0005` with tolerance `1e-3`. -/
theorem get_ps_1h_hmA5 (f1 f2 : ℝ) :
    hmA.get_ps_1h 5.0005 1 (some profOne) (some profOne) (some [1, 1])
      (some [1, 1]) none none f1 f2 1e-3 = .ok f1 := by
  simp [HaloModel.get_ps_1h, prep_hmA_near, integ1_hmA, bindOk, pureOk]

/-- `get_ps_2h` on `hmA` at `z = 5.0005` with tolerance `1e-3`. -/
theorem get_ps_2h_hmA5 (f1 f2 : ℝ) :
    hmA.get_ps_2h 5.0005 1 (some profOne) (some profOne) (some [1, 1])
      (some [1, 1]) none none f1 f2 1e-3 = .ok (f1 * f2) := by
  simp [HaloModel.get_ps_2h, prep_hmA_near, integ2_hmA, get_ps_lin_hmA,
    bindOk, pureOk]

/-- C5: at `z = 5.0005` with user tolerance `ztol = 1e-5` (no tabulated
redshift of `hmA` lies within `1e-5` of `z`), `get_ps_1h`, `get_ps_2h` and
`get_ps_shot` all raise `ValueError` as claimed, but `get_ps_mm` returns a
value (`2e-5`): it forwards `ztol` positionally into the `focc1` slot of
its internal calls, whose redshift check therefore uses the default
tolerance `1e-3`, which `z` passes. -/
theorem claimC5_get_ps_mm_ztol_misrouted :
    hmA.get_ps_1h 5.0005 1 (some profOne) (some profOne) (some [1, 1])
      (some [1, 1]) none none 1 1 1e-5 = .error .valueError ∧
    hmA.get_ps_2h 5.0005 1 (some profOne) (some profOne) (some [1, 1])
      (some [1, 1]) none none 1 1 1e-5 = .error .valueError ∧
    hmA.get_ps_shot 5.0005 1 (some [1, 1]) (some [1, 1]) none none 1 1
      1e-5 = .error .valueError ∧
    hmA.get_ps_mm 5.0005 1 (some profOne) (some profOne) (some [1, 1])
      (some [1, 1]) none none 1e-5 = .ok 2e-5 := by
  have hlin : hmA.pf.halo_ps_linear = false := rfl
  refine ⟨?_, ?_, ?_, ?_⟩
  · simp [HaloModel.get_ps_1h, prep_hmA_far, bindErr]
  · simp [HaloModel.get_ps_2h, prep_hmA_far, bindErr]
  · simp [HaloModel.get_ps_shot, prep_hmA_far, bindErr]
  · simp [HaloModel.get_ps_mm, hlin, get_ps_1h_hmA5, get_ps_2h_hmA5,
      bindOk, pureOk]
    norm_num

/-- C2: in linear-only mode, with no luminosity or mass-floor weighting
supplied and a redshift within tolerance of the grid, `get_ps_2h` returns
exactly the linear matter power spectrum log-log-interpolated from
`(tab_k_lin, tab_ps_lin)` onto `k` — a pure interpolation of the input
table, with no halo integral evaluated. -/
theorem claimC2_get_ps_2h_linear_shortcut (hm : HaloModel)
    (z k focc1 focc2 ztol : ℝ) (prof1 prof2 : Option Prof)
    (hlin : hm.pf.halo_ps_linear = true) (hne : hm.tab_z ≠ [])
    (hz : ¬(|hm.tab_z.getD (argminAbs z hm.tab_z) 0 - z| > ztol)) :
    hm.get_ps_2h z k prof1 prof2 none none none none focc1 focc2 ztol =
      .ok (Real.exp (interp (Real.log k) (hm.tab_k_lin.map Real.log)
        ((hm.tab_ps_lin.getD (argminAbs z hm.tab_z) []).map Real.log))) := by
  simp only [List.getD_eq_getElem?_getD] at hz
  simp [HaloModel.get_ps_2h, HaloModel.prep_for_ps, HaloModel.get_ps_lin,
    hne, hz, hlin, bindOk, bindErr, pureOk]

/-- C2 witness: the theorem applied to the concrete linear-only model
`hmB` at `z = 5`, `k = 1`. -/
theorem claimC2_witness :
    hmB.get_ps_2h 5 1 none none none none none none 1 1 1e-3 =
      .ok (Real.exp (interp (Real.log 1) (hmB.tab_k_lin.map Real.log)
        ((hmB.tab_ps_lin.getD (argminAbs 5 hmB.tab_z) []).map
          Real.log))) :=
  claimC2_get_ps_2h_linear_shortcut hmB 5 1 1 1 1e-3 none none rfl
    (by simp [hmB, hmA])
    (by norm_num [hmB, hmA, argminAbs])

/-- C3: the shot-noise term is independent of wavenumber — for a redshift
within tolerance of the grid and fixed luminosities and occupation,
`get_ps_shot` at `k1` equals `get_ps_shot` at `k2` for `k1 ≠ k2`, and both
equal the trapezoidal integral of `dndlnm * focc1 * lum1 * lum2` over
`log M`. -/
theorem claimC3_get_ps_shot_k_independent (hm : HaloModel)
    (z k1 k2 focc1 focc2 ztol : ℝ) (l1 l2 : List ℝ)
    (mmin1 mmin2 : Option ℝ) (hne : hm.tab_z ≠ [])
    (hz : ¬(|hm.tab_z.getD (argminAbs z hm.tab_z) 0 - z| > ztol))
    (hk : k1 ≠ k2) :
    hm.get_ps_shot z k1 (some l1) (some l2) mmin1 mmin2 focc1 focc2 ztol =
      hm.get_ps_shot z k2 (some l1) (some l2) mmin1 mmin2 focc1 focc2
        ztol ∧
    hm.get_ps_shot z k1 (some l1) (some l2) mmin1 mmin2 focc1 focc2 ztol =
      .ok (trapz ((listMul (listMul
          (hm.tab_dndlnm.getD (argminAbs z hm.tab_z) []) l1) l2).map
        (· * focc1)) (hm.tab_M.map Real.log)) := by
  simp only [List.getD_eq_getElem?_getD] at hz
  constructor <;>
    simp [HaloModel.get_ps_shot, HaloModel.prep_for_ps, hne, hz, bindOk,
      bindErr, pureOk]

/-- C3 witness: the theorem applied to the concrete model `hmA` at
`z = 5`, `k1 = 1`, `k2 = 2`, unit luminosities. -/
theorem claimC3_witness :
    hmA.get_ps_shot 5 1 (some [1, 1]) (some [1, 1]) none none 1 1 1e-3 =
      hmA.get_ps_shot 5 2 (some [1, 1]) (some [1, 1]) none none 1 1
        1e-3 ∧
    hmA.get_ps_shot 5 1 (some [1, 1]) (some [1, 1]) none none 1 1 1e-3 =
      .ok (trapz ((listMul (listMul
          (hmA.tab_dndlnm.getD (argminAbs 5 hmA.tab_z) []) [1, 1])
          [1, 1]).map (· * 1)) (hmA.tab_M.map Real.log)) :=
  claimC3_get_ps_shot_k_independent hmA 5 1 2 1 1 1e-3 [1, 1] [1, 1]
    none none (by simp [hmA]) (by norm_num [hmA, argminAbs])
    (by norm_num)

/-- Evaluation of the constant profile on the `hmC4` mass grid. -/
theorem evalProf_profOne_hmC4 :
    hmC4.evalProf profOne 0 1 = .ok [1, 1] := by
  simp [HaloModel.evalProf, profOne, mapExcept, hmC4, hmA, bindOk, pureOk,
    abs_one]

/-- The nearest grid mass to the floor `e` on the grid `[e, e^2]` is the
first entry. -/
theorem argminAbs_exp_one :
    argminAbs (Real.exp 1) [Real.exp 1, Real.exp 2] = 0 := by
  have h0 : ¬(|Real.exp 2 - Real.exp 1| < |Real.exp 1 - Real.exp 1|) := by
    rw [sub_self, abs_zero]
    exact not_lt.mpr (abs_nonneg _)
  simp [argminAbs, h0]

/-- C4: in the 2-halo integral on `hmC4`, a side-1 mass floor `e` with no
side-1 luminosity normalises by the tabulated collapsed fraction at the
nearest grid mass (`tab_fcoll[0][0] = 1/2`, giving integral
`e + e^2`) with zero small-halo correction, as claimed; but the symmetric
side-2 case (mass floor `e` supplied as `mmin2`, no `lum2`) raises
`NameError` instead, because that branch of the source references the
undefined names `fcoll_2d`, `z` and `Mmin_2`. -/
theorem claimC4_mass_floor_side2_bug :
    hmC4.integrate_over_prof 1 0 profOne profOne none (some [1, 1])
      (some (Real.exp 1)) none 1 1 2 =
      .ok (Real.exp 1 + Real.exp 2, some 1) ∧
    hmC4.integrate_over_prof 1 0 profOne profOne none none none
      (some (Real.exp 1)) 1 1 2 = .error .nameError := by
  constructor
  · simp only [HaloModel.integrate_over_prof, evalProf_profOne_hmC4,
      bindOk]
    norm_num [HaloModel.sideOne, HaloModel.sideTwo, hmC4, hmA,
      argminAbs_exp_one, listMul, maskPos_pair, trapz_pair, bindOk, pureOk,
      Real.log_exp]
    ring
  · simp only [HaloModel.integrate_over_prof, evalProf_profOne_hmC4,
      bindOk]
    simp [HaloModel.sideTwo, bindErr]

/-- C8: when the output path already exists, `generate_ps` with
`clobber = False` fails with an `IOError` before any computation or write
and leaves the filesystem exactly as it was; with `clobber = True` the
stale file is deleted, the run proceeds, and the freshly computed table is
written to the path (all other paths untouched). -/
theorem claimC8_generate_ps_clobber (hm : HaloModel) (fs : FsMap)
    (fn : String) (f : PSFile) (h : fs fn = some f) :
    hm.generate_ps fs fn false = (.error .ioError, fs) ∧
    (hm.generate_ps fs fn true).1 = .ok () ∧
    (hm.generate_ps fs fn true).2 fn = some (HaloModel.psFile hm) ∧
    ∀ q, q ≠ fn → (hm.generate_ps fs fn true).2 q = fs q := by
  refine ⟨?_, ?_, ?_, fun q hq => ?_⟩ <;>
    simp [HaloModel.generate_ps, HaloModel.write_ps, fsRemove, fsWrite, h,
      *]

/-- C8 witness: the theorem applied to the concrete filesystem `fs0`
holding `halo_ps.hdf5` and the model `hmA`. -/
theorem claimC8_witness :
    hmA.generate_ps fs0 "halo_ps.hdf5" false = (.error .ioError, fs0) ∧
    (hmA.generate_ps fs0 "halo_ps.hdf5" true).1 = .ok () ∧
    (hmA.generate_ps fs0 "halo_ps.hdf5" true).2 "halo_ps.hdf5" =
      some (HaloModel.psFile hmA) := by
  have h := claimC8_generate_ps_clobber hmA fs0 "halo_ps.hdf5" (.other 0)
    (by simp [fs0])
  exact ⟨h.1, h.2.1, h.2.2.1⟩

/-- C9 (amended): with the Duffy relation configured, evaluating the NFW
density profile at the degenerate scalar radius `r = 0` always raises
`ZeroDivisionError` (the scalar branch divides by `x * (1 + x) ^ 2` with
`x = 0`); no analytic limit is returned. -/
theorem claimC9_rho_nfw_r0_raises (hm : HaloModel) (z Mh : ℝ) (t : Bool)
    (h : hm.pf.halo_cmr = "duffy") :
    hm.get_rho_nfw z Mh 0 t = .error .zeroDivisionError :=
  rho_nfw_r0_aux hm z Mh t h

/-- C9 counterexample: at the concrete state `hmA` with `z = 0`,
`Mh = 2e12`, `r = 0`, `get_rho_nfw` raises `ZeroDivisionError`, refuting
the claim that the call does not raise and returns an analytic limit. -/
theorem claimC9_counterexample :
    hmA.get_rho_nfw 0 2e12 0 true = .error .zeroDivisionError :=
  rho_nfw_r0_aux hmA 0 2e12 true rfl

/-- C9 witness: the amended theorem applied at a concrete input. -/
theorem claimC9_witness :
    hmA.get_rho_nfw 1 1 0 false = .error .zeroDivisionError :=
  claimC9_rho_nfw_r0_raises hmA 1 1 false rfl

/-- C6: with the `'duffy'` concentration-mass relation configured,
`get_concentration(z, Mh)` returns exactly
`6.71 * (Mh / 2e12) ^ -0.091 * (1 + z) ^ -0.44`, and in particular `6.71`
at `z = 0`, `Mh = 2e12`. -/
theorem claimC6_get_concentration_duffy (hm : HaloModel) (z Mh : ℝ)
    (h : hm.pf.halo_cmr = "duffy") :
    hm.get_concentration z Mh =
      .ok (6.71 * (Mh / 2e12) ^ (-0.091 : ℝ) * (1 + z) ^ (-0.44 : ℝ)) ∧
    hm.get_concentration 0 2e12 = .ok 6.71 := by
  constructor
  · simp [HaloModel.get_concentration, HaloModel.get_cmr_duffy, h]
  · simp [HaloModel.get_concentration, HaloModel.get_cmr_duffy, h]
    norm_num [Real.one_rpow]

/-- C6 witness: the theorem applied to the concrete model `hmA`. -/
theorem claimC6_witness :
    hmA.get_concentration 1 1 =
      .ok (6.71 * ((1 : ℝ) / 2e12) ^ (-0.091 : ℝ) *
        (1 + (1 : ℝ)) ^ (-0.44 : ℝ)) ∧
    hmA.get_concentration 0 2e12 = .ok 6.71 :=
  claimC6_get_concentration_duffy hmA 1 1 rfl

/-- C7: with a concentration-mass-relation name that is neither `'duffy'`
nor `'zehavi'`, `get_concentration` fails immediately (the fallthrough
branch raises) rather than returning a value. -/
theorem claimC7_get_concentration_unknown (hm : HaloModel) (z Mh : ℝ)
    (h1 : hm.pf.halo_cmr ≠ "duffy") (h2 : hm.pf.halo_cmr ≠ "zehavi") :
    hm.get_concentration z Mh = .error .typeError := by
  simp [HaloModel.get_concentration, h1, h2]

/-- C7 witness: the theorem applied to the concrete model `hm7`, whose
relation name is `'nfw'`. -/
theorem claimC7_witness :
    hm7.get_concentration 0 1 = .error .typeError :=
  claimC7_get_concentration_unknown hm7 0 1 (by decide) (by decide)

/-- Whenever the compute branch of `get_cf_mm` succeeds, its result is an
`(R, cf)` pair. -/
theorem get_cf_mm_compute_pair (hm : HaloModel) (z : ℝ)
    (R : Option (List ℝ)) (res : CFRes)
    (h : hm.get_cf_mm_compute z R = .ok res) : ∃ a b, res = .pair a b := by
  unfold HaloModel.get_cf_mm_compute at h
  by_cases hmc : hm.pf.use_mcfit = true
  · simp only [hmc, if_true] at h
    cases hmap : mapExcept (fun kk =>
        hm.get_ps_mm z kk none none none none none none 1e-3)
        (if hm.pf.halo_ps_linear = true then hm.tab_k_lin else hm.tab_k) with
    | error e => simp [hmap, bindErr] at h
    | ok P =>
      simp only [hmap, bindOk] at h
      cases R with
      | none =>
        simp only [pureOk, Except.ok.injEq] at h
        exact ⟨_, _, h.symm⟩
      | some Rl =>
        simp only [pureOk, Except.ok.injEq] at h
        exact ⟨_, _, h.symm⟩
  · rw [if_neg hmc] at h
    cases hcf : hm.cfFromPsFunc (R.getD hm.tab_R) (fun kk =>
        hm.get_ps_mm z kk none none none none none none 1e-3) with
    | error e => simp [hcf, bindErr] at h
    | ok cf =>
      simp only [hcf, bindOk, pureOk, Except.ok.injEq] at h
      exact ⟨_, _, h.symm⟩

/-- C10: `get_cf_mm` does not always return a pair.  On the table-load
fast path (loading enabled, `load = true`, linear-only off, redshift
within the assert tolerance, and a supplied `R` of the tabulated length)
it returns a bare correlation-function array — the tabulated row when
`np.allclose(R, tab_R)`, else its interpolation onto `R`; on every other
path, whenever it succeeds, the result is an `(R, cf)` pair. -/
theorem claimC10_get_cf_mm_shape (hm : HaloModel) (z ztol : ℝ)
    (load : Bool) (Ropt : Option (List ℝ)) :
    (∀ Rl, Ropt = some Rl → hm.pf.halo_ps_load = true → load = true →
      hm.pf.halo_ps_linear = false →
      |z - hm.tab_z.getD (argminAbs z hm.tab_z) 0| < ztol →
      Rl.length = hm.tab_R.length →
      hm.get_cf_mm z Ropt load ztol =
        .ok (.arr (if allclose Rl hm.tab_R then
            hm.tab_cf_mm.getD (argminAbs z hm.tab_z) []
          else Rl.map (fun r =>
            interp r hm.tab_R
              (hm.tab_cf_mm.getD (argminAbs z hm.tab_z) []))))) ∧
    ((hm.pf.halo_ps_load = true → load = true →
        hm.pf.halo_ps_linear = false →
        ∀ Rl, Ropt = some Rl → Rl.length ≠ hm.tab_R.length) →
      ∀ res, hm.get_cf_mm z Ropt load ztol = .ok res →
        ∃ a b, res = .pair a b) := by
  constructor
  · rintro Rl rfl hload hl hlin hz hlen
    have hz' : ¬(ztol ≤ |z - hm.tab_z[argminAbs z hm.tab_z]?.getD 0|) := by
      simp only [List.getD_eq_getElem?_getD] at hz
      exact not_le.mpr hz
    simp [HaloModel.get_cf_mm, hload, hl, hlin, hlen, hz']
    try split_ifs <;> rfl
  · intro hnf res hres
    unfold HaloModel.get_cf_mm at hres
    split at hres
    · rename_i hcond
      have hlin : hm.pf.halo_ps_linear = false := by
        cases hval : hm.pf.halo_ps_linear
        · rfl
        · exact absurd hval hcond.2.2
      simp only [] at hres
      by_cases hz : ¬|z - hm.tab_z.getD (argminAbs z hm.tab_z) 0| < ztol
      · rw [if_pos hz] at hres
        exact absurd hres (by simp)
      · rw [if_neg hz] at hres
        cases Ropt with
        | none => exact get_cf_mm_compute_pair hm z none res hres
        | some Rl =>
          simp only [] at hres
          by_cases hlen : Rl.length = hm.tab_R.length
          · exact absurd hlen (hnf hcond.1 hcond.2.1 hlin _ rfl)
          · rw [if_neg hlen] at hres
            exact get_cf_mm_compute_pair hm z _ res hres
    · exact get_cf_mm_compute_pair hm z Ropt res hres

/-- C10 witness: the fast-path half of the theorem applied to `hmA` with a
supplied `R` of the tabulated length. -/
theorem claimC10_witness :
    hmA.get_cf_mm 5 (some [1]) true 1e-2 =
      .ok (.arr (if allclose [1] hmA.tab_R then
          hmA.tab_cf_mm.getD (argminAbs 5 hmA.tab_z) []
        else [1].map (fun r =>
          interp r hmA.tab_R
            (hmA.tab_cf_mm.getD (argminAbs 5 hmA.tab_z) [])))) :=
  (claimC10_get_cf_mm_shape hmA 5 1e-2 true (some [1])).1 [1] rfl rfl rfl
    rfl (by norm_num [hmA, argminAbs, sub_self, abs_zero])
    (by simp [hmA])
